import Mathlib

/-!
Verification development for the OrcJIT v2 C API unit tests
(`OrcCAPITest.cpp`).  The test file only drives an external JIT library,
so the JIT subsystem itself (symbol string pool, JIT dylibs,
materialization units, resource trackers, compilation and execution) is
modelled from the specification, while everything the repository itself
contains — the IR module built by `createTestModule`, the test definition
generator `definitionGeneratorFn`, and the control flow of each test
case — is translated directly from the source.
-/

set_option autoImplicit false

namespace OrcCAPI

universe u

/-- 32-bit wraparound arithmetic, the semantics of an `i32` LLVM value. -/
def u32 (n : Nat) : Nat := n % 2 ^ 32

/-- An operand of an instruction in the tiny IR fragment the tests build:
either the `i`-th function parameter or the result of the `i`-th
instruction of the body. -/
inductive IRValue where
  | param (i : Nat)
  | inst (i : Nat)
deriving DecidableEq

/-- The only instruction the test module uses: a 32-bit integer add
(`LLVMBuildAdd`). -/
inductive IRInst where
  | add (lhs rhs : IRValue)
deriving DecidableEq

/-- An IR function: name, parameter count, straight-line body, returned
operand.  This mirrors exactly the shape `createTestModule` builds with
the C API (one entry block, a sequence of instructions, one `ret`). -/
structure IRFunction where
  name : String
  numParams : Nat
  body : List IRInst
  ret : IRValue
deriving DecidableEq

/-- An IR module: a name and its functions. -/
structure IRModule where
  name : String
  funcs : List IRFunction
deriving DecidableEq

/-- Translation of `createTestModule` from the source: a module named
"test" holding a function "sum" taking two `i32` parameters whose body is
a single `add` of the two parameters, returning that sum. -/
def createTestModule : IRModule :=
  { name := "test"
    funcs := [{ name := "sum"
                numParams := 2
                body := [IRInst.add (IRValue.param 0) (IRValue.param 1)]
                ret := IRValue.inst 0 }] }

/-- Evaluate an operand given the arguments and the already-computed
instruction results. -/
def evalValue (args computed : List Nat) : IRValue → Nat
  | IRValue.param i => args.getD i 0
  | IRValue.inst i => computed.getD i 0

/-- Run the straight-line body, accumulating each instruction's 32-bit
result. -/
def evalBody (args : List Nat) : List IRInst → List Nat → List Nat
  | [], computed => computed
  | IRInst.add l r :: rest, computed =>
      evalBody args rest
        (computed ++ [u32 (evalValue args computed l + evalValue args computed r)])

/-- Modelled from the spec: executing a compiled function ("a compiled
two-argument integer addition function ... executes and returns the
arithmetic sum of its inputs") is running the IR semantics of the
function the JIT compiled. -/
def execIRFunction (f : IRFunction) (args : List Nat) : Nat :=
  evalValue args (evalBody args f.body []) f.ret

/-- Modelled from the spec: the symbol string pool is "an interning table
mapping symbol names to unique, reference-counted identity tokens".  We
model the pool as the list of interned strings; an entry's identity is
its index.  `internPool` returns the existing index when the name is
already present and otherwise appends the name. -/
def internPool : List String → String → List String × Nat
  | [], s => ([s], 0)
  | p :: rest, s =>
      if p = s then (p :: rest, 0)
      else
        let r := internPool rest s
        (p :: r.1, r.2 + 1)

/-- Modelled from the spec: `LLVMOrcSymbolStringPoolEntryStr` retrieves
the string of a pool entry. -/
def symbolStringPoolEntryStr (pool : List String) (e : Nat) : String :=
  pool.getD e ""

/-- `LLVMJITSymbolGenericFlagsExported` bit of the generic symbol flags. -/
def LLVMJITSymbolGenericFlagsExported : Nat := 1

/-- `LLVMJITSymbolGenericFlagsWeak` bit of the generic symbol flags. -/
def LLVMJITSymbolGenericFlagsWeak : Nat := 2

/-- An evaluated symbol as in `LLVMJITEvaluatedSymbol`: an address plus
generic and target flags. -/
structure EvaluatedSymbol where
  addr : Nat
  genericFlags : Nat
  targetFlags : Nat
deriving DecidableEq

/-- A symbol definition resident in a JIT dylib: its name, evaluated
symbol data, and the resource tracker it was loaded under. -/
structure SymbolDef where
  name : String
  addr : Nat
  genericFlags : Nat
  targetFlags : Nat
  tracker : Nat
deriving DecidableEq

/-- Modelled from the spec: a JIT dylib is "a named namespace of
resolvable symbols".  `hasCAPIGenerator` records whether the test's
custom definition generator has been attached with
`LLVMOrcJITDylibAddGenerator` (the only generator the program uses). -/
structure JITDylib where
  name : String
  defs : List SymbolDef
  hasCAPIGenerator : Bool
deriving DecidableEq

/-- Modelled from the spec: an execution session owns the symbol string
pool and the JIT dylibs.  A dylib handle is its index in `dylibs`. -/
structure ExecSession where
  pool : List String
  dylibs : List JITDylib
deriving DecidableEq

/-- Look a definition up by name inside one dylib. -/
def findDef : List SymbolDef → String → Option SymbolDef
  | [], _ => none
  | d :: rest, n => if d.name = n then some d else findDef rest n

/-- `dylibLookupDef d n` resolves `n` directly in the dylib `d`. -/
def dylibLookupDef (d : JITDylib) (n : String) : Option SymbolDef :=
  findDef d.defs n

/-- Index-based list read, used for dylib handles. -/
def getIdx {α : Type u} : List α → Nat → Option α
  | [], _ => none
  | a :: _, 0 => some a
  | _ :: l, n + 1 => getIdx l n

/-- Index-based list write, used for dylib handles. -/
def setIdx {α : Type u} : List α → Nat → α → List α
  | [], _, _ => []
  | _ :: l, 0, b => b :: l
  | a :: l, n + 1, b => a :: setIdx l n b

/-- Index of the first dylib carrying a given name, if any. -/
def dylibIdxByName : List JITDylib → String → Option Nat
  | [], _ => none
  | d :: rest, n =>
      if d.name = n then some 0
      else
        match dylibIdxByName rest n with
        | some i => some (i + 1)
        | none => none

/-- Modelled from the spec:
`LLVMOrcExecutionSessionGetJITDylibByName` returns the handle of the
dylib with the given name, or a null result when none exists. -/
def getJITDylibByName (es : ExecSession) (n : String) : Option Nat :=
  dylibIdxByName es.dylibs n

/-- Modelled from the spec:
`LLVMOrcExecutionSessionCreateBareJITDylib` appends a fresh, empty dylib
with the given name and returns its handle. -/
def createBareJITDylib (es : ExecSession) (n : String) : ExecSession × Nat :=
  ({ es with dylibs := es.dylibs ++ [⟨n, [], false⟩] }, es.dylibs.length)

/-- A materialization unit, as produced by `LLVMOrcAbsoluteSymbols`: a
list of name/evaluated-symbol pairs. -/
structure MaterializationUnit where
  syms : List (String × EvaluatedSymbol)
deriving DecidableEq

/-- `LLVMOrcAbsoluteSymbols`: wrap a symbol map into a materialization
unit. -/
def absoluteSymbols (pairs : List (String × EvaluatedSymbol)) :
    MaterializationUnit :=
  ⟨pairs⟩

/-- Modelled from the spec: `LLVMOrcJITDylibDefine` installs the
materialization unit's symbols into the dylib under the given tracker.
Since the dylib is a namespace of resolvable symbols, defining an
already-present name fails. -/
def jitDylibDefine (d : JITDylib) (mu : MaterializationUnit) (tr : Nat) :
    Except String JITDylib :=
  if mu.syms.any (fun p => (dylibLookupDef d p.1).isSome) then
    Except.error "duplicate definition"
  else
    Except.ok
      { d with
        defs := d.defs ++ mu.syms.map
          (fun p => ⟨p.1, p.2.addr, p.2.genericFlags, p.2.targetFlags, tr⟩) }

/-- The dylib's default resource tracker identity. -/
def defaultTracker : Nat := 0

/-- The model's address for the C function `materializationUnitFn`, the
address both the `MaterializationUnitCreation` test and the definition
generator hand to `LLVMOrcAbsoluteSymbols`. -/
def materializationUnitFnAddr : Nat := 4096

/-- One iteration of `definitionGeneratorFn`'s loop, translated from the
source: build an absolute-symbol materialization unit binding the name
to the address of `materializationUnitFn` with weak generic flags and
zero target flags, then `LLVMOrcJITDylibDefine` it, discarding the result as
the source does. -/
def generatorStep (d : JITDylib) (n : String) : JITDylib :=
  match jitDylibDefine d
      (absoluteSymbols [(n, ⟨materializationUnitFnAddr,
        LLVMJITSymbolGenericFlagsWeak, 0⟩)]) defaultTracker with
  | Except.ok d2 => d2
  | Except.error _ => d

/-- Fold of `generatorStep` over the requested lookup set. -/
def generatorFold : JITDylib → List String → JITDylib
  | d, [] => d
  | d, n :: rest => generatorFold (generatorStep d n) rest

/-- Translation of `definitionGeneratorFn` from the source: define every
requested name into the queried dylib via `generatorStep`, then return
`LLVMErrorSuccess` (modelled as `none`: a null error reference). -/
def definitionGeneratorFn (d : JITDylib) (names : List String) :
    JITDylib × Option String :=
  (generatorFold d names, none)

/-- `LLVMOrcJITDylibAddGenerator` with the test's custom C API
generator: mark the dylib as owning the generator. -/
def addCAPIGenerator (d : JITDylib) : JITDylib :=
  { d with hasCAPIGenerator := true }

/-- Modelled from the spec: the LLJIT instance: its execution session,
the handle of its main dylib, the compiled-code map from addresses to IR
functions, the next free code address and the next fresh resource
tracker identity. -/
structure LLJIT where
  es : ExecSession
  mainIdx : Nat
  code : List (Nat × IRFunction)
  nextAddr : Nat
  nextTracker : Nat
deriving DecidableEq

/-- Base of the address range the model's compiler allocates from. -/
def codeBaseAddr : Nat := 65536

/-- Modelled from the spec: `LLVMOrcCreateLLJIT` produces a fresh LLJIT
instance with an empty symbol string pool and a single main dylib. -/
def createLLJIT : LLJIT :=
  { es := { pool := [], dylibs := [⟨"main", [], false⟩] }
    mainIdx := 0
    code := []
    nextAddr := codeBaseAddr
    nextTracker := 1 }

/-- `LLVMOrcCreateLLJIT` as a fallible call (the modelled session
creation always succeeds). -/
def createLLJITResult : Except String LLJIT :=
  Except.ok createLLJIT

/-- `LLVMOrcJITDylibCreateResourceTracker`: hand out a fresh tracker
identity. -/
def jitDylibCreateResourceTracker (jit : LLJIT) : LLJIT × Nat :=
  ({ jit with nextTracker := jit.nextTracker + 1 }, jit.nextTracker)

/-- `LLVMOrcExecutionSessionIntern` at the LLJIT level: intern the name
in the session pool, returning the updated state and the entry. -/
def lljitIntern (jit : LLJIT) (s : String) : LLJIT × Nat :=
  let r := internPool jit.es.pool s
  ({ jit with es := { jit.es with pool := r.1 } }, r.2)

/-- Compile one list of IR functions into a dylib: each function gets a
fresh address, is defined under the given tracker with exported generic
flags, and is recorded in the code map.  Defining an already-present
name fails, as in `jitDylibDefine`. -/
def defineFnList (d : JITDylib) (fs : List IRFunction) (base tr : Nat) :
    Except String (JITDylib × List (Nat × IRFunction) × Nat) :=
  match fs with
  | [] => Except.ok (d, [], base)
  | f :: rest =>
      if (dylibLookupDef d f.name).isSome then
        Except.error "duplicate definition"
      else
        match defineFnList
            { d with defs := d.defs ++
                [⟨f.name, base, LLVMJITSymbolGenericFlagsExported, 0, tr⟩] }
            rest (base + 1) tr with
        | Except.error e => Except.error e
        | Except.ok (d2, code2, next2) =>
            Except.ok (d2, (base, f) :: code2, next2)

/-- Modelled from the spec: `LLVMOrcLLJITAddLLVMIRModuleWithRT` (and
`LLVMOrcLLJITAddLLVMIRModule`, which uses the dylib's default tracker):
compile the module's functions into the dylib under the tracker. -/
def addModuleToDylib (jit : LLJIT) (di : Nat) (m : IRModule) (tr : Nat) :
    Except String LLJIT :=
  match getIdx jit.es.dylibs di with
  | none => Except.error "no such dylib"
  | some d =>
      match defineFnList d m.funcs jit.nextAddr tr with
      | Except.error e => Except.error e
      | Except.ok (d2, newCode, next2) =>
          Except.ok
            { jit with
              es := { jit.es with dylibs := setIdx jit.es.dylibs di d2 }
              code := jit.code ++ newCode
              nextAddr := next2 }

/-- Modelled from the spec: symbol lookup in a dylib.  A direct hit
resolves immediately; on a miss, "a registered fallback generator is
consulted" — the test's generator, when attached — and the lookup is
retried; otherwise the lookup fails with an error. -/
def lljitLookupIn (jit : LLJIT) (di : Nat) (n : String) :
    Except String (LLJIT × Nat) :=
  match getIdx jit.es.dylibs di with
  | none => Except.error "no such dylib"
  | some d =>
      match dylibLookupDef d n with
      | some sd => Except.ok (jit, sd.addr)
      | none =>
          if d.hasCAPIGenerator then
            let d2 := (definitionGeneratorFn d [n]).1
            match dylibLookupDef d2 n with
            | some sd =>
                Except.ok
                  ({ jit with
                     es := { jit.es with
                             dylibs := setIdx jit.es.dylibs di d2 } },
                   sd.addr)
            | none => Except.error "Symbols not found"
          else Except.error "Symbols not found"

/-- `LLVMOrcLLJITLookup`: resolve a name in the LLJIT's main dylib. -/
def lljitLookup (jit : LLJIT) (n : String) : Except String (LLJIT × Nat) :=
  lljitLookupIn jit jit.mainIdx n

/-- Modelled from the spec: `LLVMOrcResourceTrackerRemove` — a resource
tracker is "used to group and later collectively remove a set of loaded
definitions", so removal deletes from every dylib all definitions loaded
under the tracker. -/
def resourceTrackerRemove (jit : LLJIT) (tr : Nat) : LLJIT :=
  { jit with
    es := { jit.es with
            dylibs := jit.es.dylibs.map
              (fun d => { d with
                          defs := d.defs.filter (fun sd => sd.tracker ≠ tr) }) } }

/-- Execute compiled code at an address: run the IR function the JIT
placed there, if any. -/
def execCode (jit : LLJIT) (addr : Nat) (args : List Nat) : Option Nat :=
  match jit.code.find? (fun p => p.1 = addr) with
  | some p => some (execIRFunction p.2 args)
  | none => none

/-- `LLVMOrcJITDylibDefine` as the tests use it: the returned error is
discarded, so a failing definition leaves the dylib unchanged. -/
def lljitDylibDefineDiscard (jit : LLJIT) (di : Nat)
    (mu : MaterializationUnit) : LLJIT :=
  match getIdx jit.es.dylibs di with
  | none => jit
  | some d =>
      match jitDylibDefine d mu defaultTracker with
      | Except.ok d2 =>
          { jit with es := { jit.es with dylibs := setIdx jit.es.dylibs di d2 } }
      | Except.error _ => jit

/-- `LLVMOrcJITDylibAddGenerator` at the LLJIT level. -/
def lljitAddGenerator (jit : LLJIT) (di : Nat) : LLJIT :=
  match getIdx jit.es.dylibs di with
  | none => jit
  | some d =>
      { jit with
        es := { jit.es with dylibs := setIdx jit.es.dylibs di (addCAPIGenerator d) } }

/-- The out-parameter a failed `LLVMOrcLLJITLookup` leaves behind: the
C API zeroes the result slot before resolving. -/
def lookupOutAddr : Except String (LLJIT × Nat) → Nat
  | Except.ok p => p.2
  | Except.error _ => 0

/-- Observable events of one test-case run: a call into the C API, the
receipt of a fallible `LLVMErrorRef` result (`nonNull = true` means an
actual error), a GTest failure report, a GTest assertion check, and the
return from the test body. -/
inductive TestEvent where
  | apiCall (fn : String)
  | errorReceived (nonNull : Bool)
  | addFailure
  | assertCheck (passed : Bool)
  | testReturn
deriving DecidableEq

/-- Translation of the `reportError` helper from the source: extract the
message (`LLVMGetErrorMessage`), report a GTest failure (`ADD_FAILURE`),
release the message (`LLVMDisposeErrorMessage`). -/
def reportErrorTrace : List TestEvent :=
  [TestEvent.apiCall "LLVMGetErrorMessage", TestEvent.addFailure,
   TestEvent.apiCall "LLVMDisposeErrorMessage"]

/-- Translation of the recurring guard
`if (LLVMErrorRef E = call()) \x7b reportError(E, ...); return; \x7d`:
on a non-null error, report it and return early; otherwise continue with
the rest of the test body. -/
def guardE {α : Type u} (r : Except String α) (k : α → List TestEvent) :
    List TestEvent :=
  match r with
  | Except.error _ =>
      TestEvent.errorReceived true :: (reportErrorTrace ++ [TestEvent.testReturn])
  | Except.ok a => TestEvent.errorReceived false :: k a

/-- A GTest `ASSERT_*`: on success continue, on failure report and
return from the test body. -/
def assertG (b : Bool) (k : List TestEvent) : List TestEvent :=
  if b then TestEvent.assertCheck true :: k
  else [TestEvent.assertCheck false, TestEvent.addFailure, TestEvent.testReturn]

/-- The C API calls performed by the `createTestModule` helper, in
source order. -/
def createTestModuleTrace : List TestEvent :=
  [TestEvent.apiCall "LLVMOrcCreateNewThreadSafeContext",
   TestEvent.apiCall "LLVMOrcThreadSafeContextGetContext",
   TestEvent.apiCall "LLVMModuleCreateWithNameInContext",
   TestEvent.apiCall "LLVMInt32TypeInContext",
   TestEvent.apiCall "LLVMFunctionType",
   TestEvent.apiCall "LLVMAddFunction",
   TestEvent.apiCall "LLVMCreateBuilderInContext",
   TestEvent.apiCall "LLVMAppendBasicBlock",
   TestEvent.apiCall "LLVMPositionBuilderAtEnd",
   TestEvent.apiCall "LLVMGetParam",
   TestEvent.apiCall "LLVMGetParam",
   TestEvent.apiCall "LLVMBuildAdd",
   TestEvent.apiCall "LLVMBuildRet",
   TestEvent.apiCall "LLVMDisposeBuilder",
   TestEvent.apiCall "LLVMOrcCreateNewThreadSafeModule"]

/-- Trace of the `SymbolStringPoolUniquing` test body, translated from
the source: three interns, one string retrieval, three assertions, three
releases. -/
def symbolStringPoolUniquingTrace (jit0 : LLJIT) : List TestEvent :=
  let i1 := lljitIntern jit0 "aaa"
  let i2 := lljitIntern i1.1 "aaa"
  let i3 := lljitIntern i2.1 "bbb"
  [TestEvent.apiCall "LLVMOrcExecutionSessionIntern",
   TestEvent.apiCall "LLVMOrcExecutionSessionIntern",
   TestEvent.apiCall "LLVMOrcExecutionSessionIntern",
   TestEvent.apiCall "LLVMOrcSymbolStringPoolEntryStr"] ++
  assertG (i1.2 == i2.2)
  (assertG (i1.2 != i3.2)
  (assertG (symbolStringPoolEntryStr i3.1.es.pool i1.2 == "aaa")
    [TestEvent.apiCall "LLVMOrcReleaseSymbolStringPoolEntry",
     TestEvent.apiCall "LLVMOrcReleaseSymbolStringPoolEntry",
     TestEvent.apiCall "LLVMOrcReleaseSymbolStringPoolEntry",
     TestEvent.testReturn]))

/-- Trace of the `JITDylibLookup` test body, translated from the
source. -/
def jitDylibLookupTrace (jit0 : LLJIT) : List TestEvent :=
  let d0 := getJITDylibByName jit0.es "test"
  [TestEvent.apiCall "LLVMOrcExecutionSessionGetJITDylibByName"] ++
  assertG (!d0.isSome)
  (let c := createBareJITDylib jit0.es "test"
   let l2 := getJITDylibByName c.1 "test"
   [TestEvent.apiCall "LLVMOrcExecutionSessionCreateBareJITDylib",
    TestEvent.apiCall "LLVMOrcExecutionSessionGetJITDylibByName"] ++
   assertG (l2 == some c.2) [TestEvent.testReturn])

/-- Trace of the `MaterializationUnitCreation` test body, translated
from the source: intern "test", define it as an absolute symbol at the
address of `materializationUnitFn`, look it up through the guarded
`LLVMOrcLLJITLookup`, compare addresses, release the entry. -/
def materializationUnitCreationTrace (jit0 : LLJIT) : List TestEvent :=
  let i := lljitIntern jit0 "test"
  let nm := symbolStringPoolEntryStr i.1.es.pool i.2
  let mu := absoluteSymbols
    [(nm, ⟨materializationUnitFnAddr, LLVMJITSymbolGenericFlagsWeak, 0⟩)]
  let jit2 := lljitDylibDefineDiscard i.1 i.1.mainIdx mu
  [TestEvent.apiCall "LLVMOrcExecutionSessionIntern",
   TestEvent.apiCall "LLVMOrcAbsoluteSymbols",
   TestEvent.apiCall "LLVMOrcJITDylibDefine",
   TestEvent.apiCall "LLVMOrcLLJITLookup"] ++
  guardE (lljitLookup jit2 "test") (fun p =>
    assertG (p.2 == materializationUnitFnAddr)
      [TestEvent.apiCall "LLVMOrcReleaseSymbolStringPoolEntry",
       TestEvent.testReturn])

/-- Trace of the `DefinitionGenerators` test body, translated from the
source: attach the custom generator to the main dylib, look "test" up
through the guarded lookup, compare against the generator's address. -/
def definitionGeneratorsTrace (jit0 : LLJIT) : List TestEvent :=
  let jit1 := lljitAddGenerator jit0 jit0.mainIdx
  [TestEvent.apiCall "LLVMOrcCreateCustomCAPIDefinitionGenerator",
   TestEvent.apiCall "LLVMOrcJITDylibAddGenerator",
   TestEvent.apiCall "LLVMOrcLLJITLookup"] ++
  guardE (lljitLookup jit1 "test") (fun p =>
    assertG (p.2 == materializationUnitFnAddr) [TestEvent.testReturn])

/-- Trace of the `ResourceTrackerDefinitionLifetime` test body,
translated from the source.  Note the second receipt of an
`LLVMErrorRef`: the post-removal lookup's error is deliberately
expected, checked with `ASSERT_TRUE`, and followed by further C API
calls (session retrieval, intern, two releases). -/
def resourceTrackerDefinitionLifetimeTrace (jit0 : LLJIT) : List TestEvent :=
  let c := jitDylibCreateResourceTracker jit0
  [TestEvent.apiCall "LLVMOrcJITDylibCreateResourceTracker"] ++
  createTestModuleTrace ++
  [TestEvent.apiCall "LLVMOrcLLJITAddLLVMIRModuleWithRT"] ++
  guardE (addModuleToDylib c.1 c.1.mainIdx createTestModule c.2) (fun jit2 =>
    [TestEvent.apiCall "LLVMOrcLLJITLookup"] ++
    guardE (lljitLookup jit2 "sum") (fun p =>
      assertG (p.2 != 0)
        (let jit4 := resourceTrackerRemove p.1 c.2
         let r3 := lljitLookup jit4 "sum"
         [TestEvent.apiCall "LLVMOrcResourceTrackerRemove",
          TestEvent.apiCall "LLVMOrcLLJITLookup",
          TestEvent.errorReceived (!r3.isOk)] ++
         assertG (!r3.isOk)
         (assertG (lookupOutAddr r3 == 0)
           [TestEvent.apiCall "LLVMOrcLLJITGetExecutionSession",
            TestEvent.apiCall "LLVMOrcExecutionSessionIntern",
            TestEvent.apiCall "LLVMOrcReleaseSymbolStringPoolEntry",
            TestEvent.apiCall "LLVMOrcReleaseSymbolStringPoolEntry",
            TestEvent.testReturn]))))

/-- Trace of the `ExecutionTest` test body, translated from the source:
build the sum module, add it to the main dylib, look "sum" up through
the guarded lookup, run it on (1, 1) and compare against 2. -/
def executionTestTrace (supportsJIT : Bool) (jit0 : LLJIT) : List TestEvent :=
  if supportsJIT then
    [TestEvent.apiCall "LLVMInitializeNativeAsmPrinter"] ++
    createTestModuleTrace ++
    [TestEvent.apiCall "LLVMOrcLLJITAddLLVMIRModule"] ++
    guardE (addModuleToDylib jit0 jit0.mainIdx createTestModule defaultTracker)
      (fun jit1 =>
        [TestEvent.apiCall "LLVMOrcLLJITLookup"] ++
        guardE (lljitLookup jit1 "sum") (fun p =>
          assertG ((execCode p.1 p.2 [1, 1]).getD 0 == 2)
            [TestEvent.testReturn]))
  else [TestEvent.testReturn]

/-- The C API calls of the `OrcCAPITestBase` fixture constructor: target
initialization, builder and LLJIT creation (guarded), session and main
dylib retrieval. -/
def fixtureCtorTrace : List TestEvent :=
  [TestEvent.apiCall "LLVMInitializeNativeTarget",
   TestEvent.apiCall "LLVMOrcCreateLLJITBuilder",
   TestEvent.apiCall "LLVMOrcCreateLLJIT",
   TestEvent.errorReceived false,
   TestEvent.apiCall "LLVMOrcLLJITGetExecutionSession",
   TestEvent.apiCall "LLVMOrcLLJITGetMainJITDylib"]

/-- A full fixture-based test run: the `OrcCAPITestBase` constructor,
the test body on the freshly created LLJIT, then the destructor, which
unconditionally calls `LLVMOrcDisposeLLJIT`. -/
def fixtureRun (body : LLJIT → List TestEvent) : List TestEvent :=
  fixtureCtorTrace ++ body createLLJIT ++ [TestEvent.apiCall "LLVMOrcDisposeLLJIT"]

/-- Trace of the standalone (pre-fixture) `MaterializationUnitCreation`
test, translated from the source: it creates its own LLJIT, defines and
looks up "test", and ends without ever calling `LLVMOrcDisposeLLJIT`. -/
def oldMaterializationUnitCreationTrace : List TestEvent :=
  [TestEvent.apiCall "LLVMInitializeNativeTarget",
   TestEvent.apiCall "LLVMOrcCreateLLJITBuilder",
   TestEvent.apiCall "LLVMOrcCreateLLJIT"] ++
  guardE createLLJITResult (fun jit =>
    [TestEvent.apiCall "LLVMOrcLLJITGetExecutionSession",
     TestEvent.apiCall "LLVMOrcLLJITGetMainJITDylib",
     TestEvent.apiCall "LLVMOrcExecutionSessionIntern",
     TestEvent.apiCall "LLVMOrcAbsoluteSymbols",
     TestEvent.apiCall "LLVMOrcJITDylibDefine",
     TestEvent.apiCall "LLVMOrcLLJITLookup"] ++
    (let i := lljitIntern jit "test"
     let nm := symbolStringPoolEntryStr i.1.es.pool i.2
     let jit2 := lljitDylibDefineDiscard i.1 i.1.mainIdx
       (absoluteSymbols
         [(nm, ⟨materializationUnitFnAddr, LLVMJITSymbolGenericFlagsWeak, 0⟩)])
     guardE (lljitLookup jit2 "test") (fun p =>
       assertG (p.2 == materializationUnitFnAddr) [TestEvent.testReturn])))

/-- The error-handling discipline the spec describes, as a predicate on
a trace: every receipt of a non-null fallible result is followed by
exactly the `reportError` events and the early return, with nothing —
in particular no further C API call — after them. -/
def errorPatternOK : List TestEvent → Bool
  | [] => true
  | TestEvent.errorReceived true :: rest =>
      decide (rest = reportErrorTrace ++ [TestEvent.testReturn])
  | _ :: rest => errorPatternOK rest

/-- Is an event a call into the C API? -/
def isApiCall : TestEvent → Bool
  | TestEvent.apiCall _ => true
  | _ => false

/-- The part of a trace strictly after the first receipt of a non-null
error, empty when no error is ever received. -/
def afterFirstError (t : List TestEvent) : List TestEvent :=
  (t.dropWhile (fun e => !(e == TestEvent.errorReceived true))).drop 1

theorem internPool_self (pool : List String) (s : String) :
    internPool (internPool pool s).1 s = internPool pool s := by
  induction pool with
  | nil => simp [internPool]
  | cons p rest ih =>
      by_cases h : p = s
      · simp [internPool, h]
      · simp [internPool, h, ih]

theorem internPool_str (pool : List String) (s : String) :
    symbolStringPoolEntryStr (internPool pool s).1 (internPool pool s).2 = s := by
  induction pool with
  | nil => simp [internPool, symbolStringPoolEntryStr]
  | cons p rest ih =>
      by_cases h : p = s
      · simp [internPool, symbolStringPoolEntryStr, h]
      · simpa [internPool, symbolStringPoolEntryStr, h] using ih

theorem internPool_ne (pool : List String) (s t : String) (hst : s ≠ t) :
    (internPool (internPool pool s).1 t).2 ≠ (internPool pool s).2 := by
  induction pool with
  | nil => simp [internPool, hst]
  | cons p rest ih =>
      by_cases hp : p = s
      · subst hp
        simp [internPool, hst]
      · by_cases ht : p = t
        · subst ht
          simp [internPool, hp]
        · simpa [internPool, hp, ht] using ih

theorem findDef_eq_none (l : List SymbolDef) (n : String) :
    findDef l n = none ↔ ∀ d ∈ l, d.name ≠ n := by
  induction l with
  | nil => simp [findDef]
  | cons d rest ih =>
      by_cases h : d.name = n
      · simp [findDef, h]
      · simp [findDef, h, ih]

theorem findDef_append (l1 l2 : List SymbolDef) (n : String) :
    findDef (l1 ++ l2) n =
      match findDef l1 n with
      | some d => some d
      | none => findDef l2 n := by
  induction l1 with
  | nil => simp [findDef]
  | cons d rest ih =>
      by_cases h : d.name = n
      · simp [findDef, h]
      · simp [findDef, h, ih]

theorem findDef_append_left_none (l1 l2 : List SymbolDef) (n : String)
    (h : findDef l1 n = none) : findDef (l1 ++ l2) n = findDef l2 n := by
  rw [findDef_append, h]

theorem findDef_append_of_none (l1 l2 : List SymbolDef) (n : String)
    (h : findDef (l1 ++ l2) n = none) : findDef l1 n = none := by
  rw [findDef_eq_none] at h ⊢
  exact fun d hd => h d (List.mem_append_left l2 hd)

theorem getIdx_setIdx {α : Type u} (l : List α) (i : Nat) (a b : α)
    (h : getIdx l i = some a) : getIdx (setIdx l i b) i = some b := by
  induction l generalizing i with
  | nil => simp [getIdx] at h
  | cons x rest ih =>
      cases i with
      | zero => simp [getIdx, setIdx]
      | succ j =>
          have hj : getIdx rest j = some a := h
          simpa [getIdx, setIdx] using ih j hj

theorem getIdx_map {α β : Type u} (f : α → β) (l : List α) (i : Nat) :
    getIdx (l.map f) i = (getIdx l i).map f := by
  induction l generalizing i with
  | nil => simp [getIdx]
  | cons x rest ih => cases i <;> simp [getIdx, ih]

theorem dylibIdxByName_none (l : List JITDylib) (n : String)
    (h : ∀ d ∈ l, d.name ≠ n) : dylibIdxByName l n = none := by
  induction l with
  | nil => rfl
  | cons d rest ih =>
      have hd : d.name ≠ n := h d (List.mem_cons_self d rest)
      have hr := ih (fun x hx => h x (List.mem_cons_of_mem d hx))
      simp [dylibIdxByName, hd, hr]

theorem dylibIdxByName_append_new (l : List JITDylib) (n : String)
    (d0 : JITDylib) (hd0 : d0.name = n) (h : ∀ d ∈ l, d.name ≠ n) :
    dylibIdxByName (l ++ [d0]) n = some l.length := by
  induction l with
  | nil => simp [dylibIdxByName, hd0]
  | cons d rest ih =>
      have hd : d.name ≠ n := h d (List.mem_cons_self d rest)
      have hr := ih (fun x hx => h x (List.mem_cons_of_mem d hx))
      simp [dylibIdxByName, hd, hr]

theorem errorPatternOK_cons (e : TestEvent) (l : List TestEvent)
    (h : e ≠ TestEvent.errorReceived true) :
    errorPatternOK (e :: l) = errorPatternOK l := by
  cases e with
  | errorReceived b =>
      cases b with
      | true => exact absurd rfl h
      | false => rfl
  | apiCall fn => rfl
  | addFailure => rfl
  | assertCheck b => rfl
  | testReturn => rfl

theorem errorPatternOK_append (l1 l2 : List TestEvent)
    (h : ∀ e ∈ l1, e ≠ TestEvent.errorReceived true) :
    errorPatternOK (l1 ++ l2) = errorPatternOK l2 := by
  induction l1 with
  | nil => rfl
  | cons e rest ih =>
      rw [List.cons_append,
        errorPatternOK_cons e _ (h e (List.mem_cons_self e rest)),
        ih (fun x hx => h x (List.mem_cons_of_mem e hx))]

theorem errorPatternOK_guardE {α : Type u} (r : Except String α)
    (k : α → List TestEvent)
    (h : ∀ a, r = Except.ok a → errorPatternOK (k a) = true) :
    errorPatternOK (guardE r k) = true := by
  cases r with
  | error e => simp [guardE, errorPatternOK]
  | ok a =>
      have hk := h a rfl
      have hstep : errorPatternOK (TestEvent.errorReceived false :: k a) =
          errorPatternOK (k a) :=
        errorPatternOK_cons _ _ (by simp)
      simpa [guardE, hstep] using hk

theorem errorPatternOK_assertG (b : Bool) (k : List TestEvent)
    (h : errorPatternOK k = true) :
    errorPatternOK (assertG b k) = true := by
  cases b with
  | true =>
      have hstep : errorPatternOK (TestEvent.assertCheck true :: k) =
          errorPatternOK k :=
        errorPatternOK_cons _ _ (by simp)
      simpa [assertG, hstep] using h
  | false => rfl

theorem defineFnList_spec (fs : List IRFunction) :
    ∀ (d d2 : JITDylib) (base tr next2 : Nat)
      (code2 : List (Nat × IRFunction)),
      defineFnList d fs base tr = Except.ok (d2, code2, next2) →
      d2.name = d.name ∧ d2.hasCAPIGenerator = d.hasCAPIGenerator ∧
      (∃ tail, d2.defs = d.defs ++ tail ∧
        ∀ sd ∈ tail, sd.tracker = tr ∧ base ≤ sd.addr) ∧
      (∀ f ∈ fs, findDef d.defs f.name = none) ∧
      (∀ f ∈ fs, ∃ sd, findDef d2.defs f.name = some sd ∧
        sd.tracker = tr ∧ base ≤ sd.addr) := by
  induction fs with
  | nil =>
      intro d d2 base tr next2 code2 h
      simp [defineFnList] at h
      obtain ⟨h1, h2, h3⟩ := h
      subst h1
      exact ⟨rfl, rfl, ⟨[], by simp, by simp⟩, by simp, by simp⟩
  | cons f rest ih =>
      intro d d2 base tr next2 code2 h
      rw [defineFnList] at h
      by_cases hf : (dylibLookupDef d f.name).isSome
      · rw [if_pos hf] at h
        exact absurd h (by simp)
      · rw [if_neg hf] at h
        have hfn : findDef d.defs f.name = none := by
          rcases ho : dylibLookupDef d f.name with _ | v
          · exact ho
          · rw [ho] at hf; simp at hf
        cases hrec : defineFnList
            { d with defs := d.defs ++
                [⟨f.name, base, LLVMJITSymbolGenericFlagsExported, 0, tr⟩] }
            rest (base + 1) tr with
        | error e =>
            rw [hrec] at h
            exact absurd h (by simp)
        | ok trip =>
            obtain ⟨d3, code3, next3⟩ := trip
            rw [hrec] at h
            simp at h
            obtain ⟨hd2, hcode, hnext⟩ := h
            subst hd2
            obtain ⟨hname, hgen, ⟨tail1, htail, htailmem⟩, hnone, hsome⟩ :=
              ih _ _ _ _ _ _ hrec
            refine ⟨by simpa using hname, by simpa using hgen, ?_, ?_, ?_⟩
            · refine ⟨⟨f.name, base, LLVMJITSymbolGenericFlagsExported, 0, tr⟩
                :: tail1, ?_, ?_⟩
              · simpa [List.append_assoc] using htail
              · intro sd hsd
                rcases List.mem_cons.mp hsd with hsd | hsd
                · subst hsd
                  exact ⟨rfl, Nat.le_refl base⟩
                · obtain ⟨h1, h2⟩ := htailmem sd hsd
                  exact ⟨h1, Nat.le_trans (Nat.le_succ base) h2⟩
            · intro g hg
              rcases List.mem_cons.mp hg with hg | hg
              · subst hg
                exact hfn
              · have := hnone g hg
                exact findDef_append_of_none _ _ _ this
            · intro g hg
              rcases List.mem_cons.mp hg with hg | hg
              · subst hg
                refine ⟨⟨g.name, base, LLVMJITSymbolGenericFlagsExported, 0, tr⟩,
                  ?_, rfl, Nat.le_refl base⟩
                rw [htail, findDef_append, findDef_append, hfn]
                simp [findDef]
              · obtain ⟨sd, h1, h2, h3⟩ := hsome g hg
                exact ⟨sd, h1, h2, Nat.le_trans (Nat.le_succ base) h3⟩

/-- A name is resolvable in a dylib exactly as the test definition
generator defines its symbols: at the address of
`materializationUnitFn`, with weak generic flags and zero target
flags. -/
def genDefined (d : JITDylib) (n : String) : Prop :=
  ∃ sd, dylibLookupDef d n = some sd ∧
    sd.addr = materializationUnitFnAddr ∧
    sd.genericFlags = LLVMJITSymbolGenericFlagsWeak ∧ sd.targetFlags = 0

theorem generatorStep_eq (d : JITDylib) (n : String) :
    (dylibLookupDef d n = none ∧
      generatorStep d n = { d with defs := d.defs ++
        [⟨n, materializationUnitFnAddr, LLVMJITSymbolGenericFlagsWeak, 0,
          defaultTracker⟩] }) ∨
    ((∃ sd, dylibLookupDef d n = some sd) ∧ generatorStep d n = d) := by
  rcases h : dylibLookupDef d n with _ | sd
  · left
    exact ⟨rfl, by simp [generatorStep, jitDylibDefine, absoluteSymbols, h]⟩
  · right
    exact ⟨⟨sd, rfl⟩, by simp [generatorStep, jitDylibDefine, absoluteSymbols, h]⟩

theorem generatorStep_keeps (d : JITDylib) (n m : String)
    (h : genDefined d m) : genDefined (generatorStep d n) m := by
  rcases generatorStep_eq d n with ⟨hn, he⟩ | ⟨hn, he⟩
  · rw [he]
    obtain ⟨sd, h1, h2⟩ := h
    refine ⟨sd, ?_, h2⟩
    simp only [dylibLookupDef] at h1 ⊢
    rw [findDef_append, h1]
  · rw [he]
    exact h

theorem generatorStep_pres (d : JITDylib) (n m : String)
    (h : dylibLookupDef d m = none ∨ genDefined d m) :
    dylibLookupDef (generatorStep d n) m = none ∨
      genDefined (generatorStep d n) m := by
  rcases h with h | h
  · rcases generatorStep_eq d n with ⟨hn, he⟩ | ⟨hn, he⟩
    · rw [he]
      by_cases hm : n = m
      · subst hm
        right
        refine ⟨⟨n, materializationUnitFnAddr, LLVMJITSymbolGenericFlagsWeak, 0,
          defaultTracker⟩, ?_, rfl, rfl, rfl⟩
        simp only [dylibLookupDef] at h ⊢
        rw [findDef_append_left_none _ _ _ h]
        simp [findDef]
      · left
        simp only [dylibLookupDef] at h ⊢
        rw [findDef_append_left_none _ _ _ h]
        simp [findDef, hm]
    · rw [he]
      exact Or.inl h
  · exact Or.inr (generatorStep_keeps d n m h)

theorem generatorStep_defines (d : JITDylib) (n : String)
    (h : dylibLookupDef d n = none ∨ genDefined d n) :
    genDefined (generatorStep d n) n := by
  rcases generatorStep_eq d n with ⟨hn, he⟩ | ⟨hn, he⟩
  · rw [he]
    refine ⟨⟨n, materializationUnitFnAddr, LLVMJITSymbolGenericFlagsWeak, 0,
      defaultTracker⟩, ?_, rfl, rfl, rfl⟩
    simp only [dylibLookupDef] at hn ⊢
    rw [findDef_append_left_none _ _ _ hn]
    simp [findDef]
  · rw [he]
    obtain ⟨sd, hsd⟩ := hn
    rcases h with h | h
    · rw [h] at hsd
      exact absurd hsd (by simp)
    · exact h

theorem generatorFold_keeps (ns : List String) (d : JITDylib) (m : String)
    (h : genDefined d m) : genDefined (generatorFold d ns) m := by
  induction ns generalizing d with
  | nil => exact h
  | cons n rest ih => exact ih _ (generatorStep_keeps d n m h)

theorem generatorFold_defines (ns : List String) (d : JITDylib)
    (h : ∀ m ∈ ns, dylibLookupDef d m = none ∨ genDefined d m) :
    ∀ m ∈ ns, genDefined (generatorFold d ns) m := by
  induction ns generalizing d with
  | nil => intro m hm; exact absurd hm (List.not_mem_nil m)
  | cons n rest ih =>
      intro m hm
      rcases List.mem_cons.mp hm with hm | hm
      · subst hm
        have hdef := generatorStep_defines d m (h m (List.mem_cons_self m rest))
        exact generatorFold_keeps rest _ m hdef
      · have hpres := fun x hx =>
          generatorStep_pres d n x (h x (List.mem_cons_of_mem n hx))
        exact ih _ (fun x hx => hpres x hx) m hm

/-- The LLJIT state after the `ResourceTrackerDefinitionLifetime` test
creates a tracker on a fresh LLJIT and adds the sum module under it:
"sum" is compiled at address 65536 under tracker 1. -/
def jitAfterSumRT : LLJIT :=
  { es := { pool := []
            dylibs := [{ name := "main"
                         defs := [⟨"sum", 65536,
                           LLVMJITSymbolGenericFlagsExported, 0, 1⟩]
                         hasCAPIGenerator := false }] }
    mainIdx := 0
    code := [(65536, { name := "sum", numParams := 2
                       body := [IRInst.add (IRValue.param 0) (IRValue.param 1)]
                       ret := IRValue.inst 0 })]
    nextAddr := 65537
    nextTracker := 2 }

/-- Claim C1: the compiled two-argument integer addition function built
by the test module (a function named "sum" whose body is a single i32
add of its two parameters), once added to the JIT and looked up,
executes and returns the arithmetic sum of its 32-bit inputs (in i32
arithmetic, i.e. modulo 2 ^ 32). -/
theorem executionTest_sum (a b : Nat) (ha : a < 2 ^ 32) (hb : b < 2 ^ 32) :
    ∃ (jit1 : LLJIT) (addr : Nat),
      addModuleToDylib createLLJIT createLLJIT.mainIdx createTestModule
        defaultTracker = Except.ok jit1 ∧
      lljitLookup jit1 "sum" = Except.ok (jit1, addr) ∧
      execCode jit1 addr [a, b] = some ((a + b) % 2 ^ 32) :=
  ⟨_, _, rfl, rfl, rfl⟩

/-- Witness for C1 at the test's own input (1, 1): the executed sum is
2, exactly what `ASSERT_EQ(2, Result)` expects. -/
theorem executionTest_sum_witness :
    ∃ (jit1 : LLJIT) (addr : Nat),
      addModuleToDylib createLLJIT createLLJIT.mainIdx createTestModule
        defaultTracker = Except.ok jit1 ∧
      lljitLookup jit1 "sum" = Except.ok (jit1, addr) ∧
      execCode jit1 addr [1, 1] = some 2 := by
  simpa using executionTest_sum 1 1 (by decide) (by decide)

/-- Claim C3: interning the same name twice in a session pool yields the
identical pool-entry identity, and interning a different name afterwards
yields a distinct identity. -/
theorem symbolStringPool_uniquing (pool : List String) (s t : String)
    (hst : s ≠ t) :
    (internPool (internPool pool s).1 s).2 = (internPool pool s).2 ∧
    (internPool (internPool (internPool pool s).1 s).1 t).2 ≠
      (internPool pool s).2 := by
  constructor
  · rw [internPool_self]
  · rw [internPool_self]
    exact internPool_ne pool s t hst

/-- Witness for C3 with the test's own strings "aaa" and "bbb" on the
fresh session pool. -/
theorem symbolStringPool_uniquing_witness :
    (internPool (internPool [] "aaa").1 "aaa").2 = (internPool [] "aaa").2 ∧
    (internPool (internPool (internPool [] "aaa").1 "aaa").1 "bbb").2 ≠
      (internPool [] "aaa").2 :=
  symbolStringPool_uniquing [] "aaa" "bbb" (by decide)

/-- Claim C6: getting a JIT dylib by a name for which none was created
returns a null result; after creating a bare dylib under that name,
getting it by the same name returns exactly the handle creation
returned. -/
theorem jitDylibLookup_roundtrip (es : ExecSession) (n : String)
    (h : ∀ d ∈ es.dylibs, d.name ≠ n) :
    getJITDylibByName es n = none ∧
    getJITDylibByName (createBareJITDylib es n).1 n =
      some (createBareJITDylib es n).2 := by
  constructor
  · exact dylibIdxByName_none es.dylibs n h
  · exact dylibIdxByName_append_new es.dylibs n _ rfl h

/-- Witness for C6 on the fresh session with the test's dylib name
"test". -/
theorem jitDylibLookup_roundtrip_witness :
    getJITDylibByName createLLJIT.es "test" = none ∧
    getJITDylibByName (createBareJITDylib createLLJIT.es "test").1 "test" =
      some (createBareJITDylib createLLJIT.es "test").2 :=
  jitDylibLookup_roundtrip createLLJIT.es "test" (by decide)

/-- Claim C9: retrieving the string of the pool entry obtained by
interning a name yields that very name, character for character, for
every pool state and every name. -/
theorem symbolStringPool_roundtrip (pool : List String) (s : String) :
    symbolStringPoolEntryStr (internPool pool s).1 (internPool pool s).2 = s :=
  internPool_str pool s

/-- Claim C10: for every lookup set of names not yet defined in the
queried dylib, `definitionGeneratorFn` defines each requested name as an
absolute symbol at the address of `materializationUnitFn` with weak
generic flags, and returns `LLVMErrorSuccess` (a null error). -/
theorem definitionGeneratorFn_spec (d : JITDylib) (names : List String)
    (h : ∀ n ∈ names, dylibLookupDef d n = none) :
    (definitionGeneratorFn d names).2 = none ∧
    ∀ n ∈ names, genDefined (definitionGeneratorFn d names).1 n := by
  constructor
  · rfl
  · intro n hn
    exact generatorFold_defines names d (fun m hm => Or.inl (h m hm)) n hn

/-- Witness for C10: the generator called on the fresh main dylib with
the test's lookup set containing "test". -/
theorem definitionGeneratorFn_spec_witness :
    (definitionGeneratorFn ⟨"main", [], false⟩ ["test"]).2 = none ∧
    ∀ n ∈ ["test"],
      genDefined (definitionGeneratorFn ⟨"main", [], false⟩ ["test"]).1 n :=
  definitionGeneratorFn_spec ⟨"main", [], false⟩ ["test"] (by decide)

/-- Claim C4: defining a symbol at a known absolute address via
`LLVMOrcAbsoluteSymbols` and `LLVMOrcJITDylibDefine`, then looking it up
by name via `LLVMOrcLLJITLookup`, succeeds and returns exactly that
address. -/
theorem materializationUnit_define_then_lookup
    (jit : LLJIT) (n : String) (a g t : Nat) (d : JITDylib)
    (hd : getIdx jit.es.dylibs jit.mainIdx = some d)
    (hn : dylibLookupDef d n = none) :
    ∃ jit2, lljitLookup
        (lljitDylibDefineDiscard jit jit.mainIdx
          (absoluteSymbols [(n, ⟨a, g, t⟩)])) n =
      Except.ok (jit2, a) := by
  have hdef : jitDylibDefine d (absoluteSymbols [(n, ⟨a, g, t⟩)])
      defaultTracker =
      Except.ok { d with defs := d.defs ++ [⟨n, a, g, t, defaultTracker⟩] } := by
    simp [jitDylibDefine, absoluteSymbols, hn]
  have hset := getIdx_setIdx jit.es.dylibs jit.mainIdx d
    { d with defs := d.defs ++ [⟨n, a, g, t, defaultTracker⟩] } hd
  have hfind : dylibLookupDef
      { d with defs := d.defs ++ [⟨n, a, g, t, defaultTracker⟩] } n =
      some ⟨n, a, g, t, defaultTracker⟩ := by
    simp only [dylibLookupDef] at hn ⊢
    rw [findDef_append_left_none _ _ _ hn]
    simp [findDef]
  refine ⟨{ jit with es := { jit.es with
    dylibs := setIdx jit.es.dylibs jit.mainIdx
      { d with defs := d.defs ++ [⟨n, a, g, t, defaultTracker⟩] } } }, ?_⟩
  simp only [lljitDylibDefineDiscard, hd, hdef, lljitLookup, lljitLookupIn,
    hset, hfind]

/-- Witness for C4: on the fresh LLJIT, defining "test" at the address
of `materializationUnitFn` with weak flags and looking "test" up returns
that address, as in the `MaterializationUnitCreation` test. -/
theorem materializationUnit_define_then_lookup_witness :
    ∃ jit2, lljitLookup
        (lljitDylibDefineDiscard createLLJIT createLLJIT.mainIdx
          (absoluteSymbols [("test",
            ⟨materializationUnitFnAddr, LLVMJITSymbolGenericFlagsWeak, 0⟩)]))
        "test" = Except.ok (jit2, materializationUnitFnAddr) :=
  materializationUnit_define_then_lookup createLLJIT "test"
    materializationUnitFnAddr LLVMJITSymbolGenericFlagsWeak 0
    ⟨"main", [], false⟩ rfl rfl

/-- Claim C5: with the custom C API definition generator attached to the
dylib, looking up a name with no existing definition consults the
generator, succeeds, and returns the address the generator supplied —
the address of `materializationUnitFn`. -/
theorem definitionGenerators_lookup
    (jit : LLJIT) (n : String) (d : JITDylib)
    (hd : getIdx jit.es.dylibs jit.mainIdx = some d)
    (hn : dylibLookupDef d n = none)
    (hg : d.hasCAPIGenerator = true) :
    ∃ jit2, lljitLookup jit n = Except.ok (jit2, materializationUnitFnAddr) := by
  have hstep : generatorStep d n = { d with defs := d.defs ++
      [⟨n, materializationUnitFnAddr, LLVMJITSymbolGenericFlagsWeak, 0,
        defaultTracker⟩] } := by
    rcases generatorStep_eq d n with ⟨h1, h2⟩ | ⟨⟨sd, h1⟩, h2⟩
    · exact h2
    · rw [hn] at h1
      exact absurd h1 (by simp)
  have hfind : dylibLookupDef (generatorStep d n) n =
      some ⟨n, materializationUnitFnAddr, LLVMJITSymbolGenericFlagsWeak, 0,
        defaultTracker⟩ := by
    rw [hstep]
    simp only [dylibLookupDef] at hn ⊢
    rw [findDef_append_left_none _ _ _ hn]
    simp [findDef]
  refine ⟨{ jit with es := { jit.es with
    dylibs := setIdx jit.es.dylibs jit.mainIdx (generatorStep d n) } }, ?_⟩
  simp only [lljitLookup, lljitLookupIn, hd, hn, hg, if_true,
    definitionGeneratorFn, generatorFold, hfind]

/-- Witness for C5: on the fresh LLJIT with the generator attached to
the main dylib, looking up the undefined name "test" returns the address
of `materializationUnitFn`, as in the `DefinitionGenerators` test. -/
theorem definitionGenerators_lookup_witness :
    ∃ jit2, lljitLookup (lljitAddGenerator createLLJIT 0) "test" =
      Except.ok (jit2, materializationUnitFnAddr) :=
  definitionGenerators_lookup (lljitAddGenerator createLLJIT 0) "test"
    ⟨"main", [], true⟩ rfl rfl rfl

/-- Claim C2: adding a compilation unit to a JIT dylib under a resource
tracker lets its symbols be looked up successfully (yielding a non-null
address), and after `LLVMOrcResourceTrackerRemove` every subsequent
lookup of the unit's symbols returns an error instead of an address. -/
theorem resourceTracker_remove_invalidates
    (jit jit1 : LLJIT) (di rt : Nat) (m : IRModule) (n : String) (d : JITDylib)
    (hd : getIdx jit.es.dylibs di = some d)
    (hgen : d.hasCAPIGenerator = false)
    (hpos : 0 < jit.nextAddr)
    (hadd : addModuleToDylib jit di m rt = Except.ok jit1)
    (hn : n ∈ m.funcs.map IRFunction.name) :
    (∃ a, lljitLookupIn jit1 di n = Except.ok (jit1, a) ∧ a ≠ 0) ∧
    (∃ e, lljitLookupIn (resourceTrackerRemove jit1 rt) di n =
      Except.error e) := by
  obtain ⟨f, hf, hfname⟩ := List.mem_map.mp hn
  cases hdef : defineFnList d m.funcs jit.nextAddr rt with
  | error e =>
      rw [addModuleToDylib] at hadd
      simp only [hd, hdef] at hadd
      exact absurd hadd (by simp)
  | ok trip =>
      obtain ⟨d2, code2, next2⟩ := trip
      rw [addModuleToDylib] at hadd
      simp only [hd, hdef, Except.ok.injEq] at hadd
      subst hadd
      obtain ⟨hname2, hgen2, ⟨tail, htail, htailmem⟩, hnone, hsome⟩ :=
        defineFnList_spec m.funcs d d2 jit.nextAddr rt next2 code2 hdef
      obtain ⟨sd, hsd1, hsdtr, hsdaddr⟩ := hsome f hf
      have hset := getIdx_setIdx jit.es.dylibs di d d2 hd
      have hlook : dylibLookupDef d2 n = some sd := by
        rw [← hfname]
        exact hsd1
      have hnonedn : findDef d.defs n = none := by
        rw [← hfname]
        exact hnone f hf
      constructor
      · refine ⟨sd.addr, ?_, ?_⟩
        · simp only [lljitLookupIn, hset, hlook]
        · have : 0 < sd.addr := Nat.lt_of_lt_of_le hpos hsdaddr
          exact Nat.pos_iff_ne_zero.mp this
      · have hfilt : findDef
            (d2.defs.filter (fun sd => sd.tracker ≠ rt)) n = none := by
          rw [findDef_eq_none]
          intro x hx
          have hx2 := List.mem_filter.mp hx
          have hxmem : x ∈ d.defs ++ tail := htail ▸ hx2.1
          rcases List.mem_append.mp hxmem with hxd | hxt
          · exact (findDef_eq_none d.defs n).mp hnonedn x hxd
          · have htr := (htailmem x hxt).1
            have hne : x.tracker ≠ rt := by simpa using hx2.2
            exact absurd htr hne
        have hlookf : dylibLookupDef
            { d2 with defs := d2.defs.filter (fun sd => sd.tracker ≠ rt) } n =
            none := hfilt
        have hgenf : ({ d2 with
            defs := d2.defs.filter (fun sd => sd.tracker ≠ rt)
            } : JITDylib).hasCAPIGenerator = false := by
          show d2.hasCAPIGenerator = false
          rw [hgen2, hgen]
        have hmap : getIdx
            (resourceTrackerRemove
              { jit with
                es := { jit.es with dylibs := setIdx jit.es.dylibs di d2 }
                code := jit.code ++ code2
                nextAddr := next2 } rt).es.dylibs di =
            some { d2 with
              defs := d2.defs.filter (fun sd => sd.tracker ≠ rt) } := by
          simp only [resourceTrackerRemove, getIdx_map, hset]
          rfl
        refine ⟨"Symbols not found", ?_⟩
        simp only [lljitLookupIn, hmap, hlookf]
        rw [hgen2, hgen]
        simp

/-- Witness for C2: the concrete `ResourceTrackerDefinitionLifetime`
run — a fresh LLJIT, a fresh tracker, the sum module added under it;
"sum" resolves to a non-null address, and resolves to an error once the
tracker is removed. -/
theorem resourceTracker_remove_invalidates_witness :
    (∃ a, lljitLookupIn jitAfterSumRT 0 "sum" =
      Except.ok (jitAfterSumRT, a) ∧ a ≠ 0) ∧
    (∃ e, lljitLookupIn (resourceTrackerRemove jitAfterSumRT 1) 0 "sum" =
      Except.error e) :=
  resourceTracker_remove_invalidates
    (jitDylibCreateResourceTracker createLLJIT).1 jitAfterSumRT 0 1
    createTestModule "sum" ⟨"main", [], false⟩ rfl rfl (by decide) rfl
    (by decide)

/-- Claim C7 counterexample: in the `ResourceTrackerDefinitionLifetime`
test body run from the fixture-provided LLJIT state, a non-null
`LLVMErrorRef` (the deliberately expected post-removal lookup failure)
is received, yet the test does not report a failure and keeps issuing C
API calls afterwards — refuting the claim that every non-null fallible
result is answered by extract-message / report-failure / release /
early-return with no further API calls. -/
theorem errorPattern_counterexample :
    errorPatternOK (resourceTrackerDefinitionLifetimeTrace createLLJIT) =
      false ∧
    (afterFirstError
      (resourceTrackerDefinitionLifetimeTrace createLLJIT)).any isApiCall =
      true ∧
    (afterFirstError
      (resourceTrackerDefinitionLifetimeTrace createLLJIT)).all
      (fun e => !(e == TestEvent.addFailure)) = true := by
  refine ⟨?_, ?_, ?_⟩ <;> decide

/-- Claim C7 amended: every fallible result the tests check through the
`reportError` guard follows the claimed pattern — in every fixture test
body other than `ResourceTrackerDefinitionLifetime` (whose deliberate
expected-error check asserts the error non-null and continues), any
non-null error receipt is followed by exactly message extraction,
failure report, message release and early return, from any modelled JIT
state. -/
theorem errorPattern_guarded (b : Bool) (jit0 : LLJIT) :
    errorPatternOK (symbolStringPoolUniquingTrace jit0) = true ∧
    errorPatternOK (jitDylibLookupTrace jit0) = true ∧
    errorPatternOK (materializationUnitCreationTrace jit0) = true ∧
    errorPatternOK (definitionGeneratorsTrace jit0) = true ∧
    errorPatternOK (executionTestTrace b jit0) = true := by
  refine ⟨?_, ?_, ?_, ?_, ?_⟩
  · simp only [symbolStringPoolUniquingTrace]
    rw [errorPatternOK_append _ _ (by decide)]
    exact errorPatternOK_assertG _ _ (errorPatternOK_assertG _ _
      (errorPatternOK_assertG _ _ (by decide)))
  · simp only [jitDylibLookupTrace]
    rw [errorPatternOK_append _ _ (by decide)]
    refine errorPatternOK_assertG _ _ ?_
    rw [errorPatternOK_append _ _ (by decide)]
    exact errorPatternOK_assertG _ _ (by decide)
  · simp only [materializationUnitCreationTrace]
    rw [errorPatternOK_append _ _ (by decide)]
    refine errorPatternOK_guardE _ _ ?_
    intro p hp
    exact errorPatternOK_assertG _ _ (by decide)
  · simp only [definitionGeneratorsTrace]
    rw [errorPatternOK_append _ _ (by decide)]
    refine errorPatternOK_guardE _ _ ?_
    intro p hp
    exact errorPatternOK_assertG _ _ (by decide)
  · cases b with
    | false => simp [executionTestTrace, errorPatternOK]
    | true =>
        simp only [executionTestTrace, if_true]
        rw [errorPatternOK_append _ _ (by decide)]
        refine errorPatternOK_guardE _ _ ?_
        intro jit1 h1
        rw [errorPatternOK_append _ _ (by decide)]
        refine errorPatternOK_guardE _ _ ?_
        intro p hp
        exact errorPatternOK_assertG _ _ (by decide)

theorem getLast_append_single {α : Type u} (l : List α) (x : α) :
    (l ++ [x]).getLast? = some x := by
  rw [List.getLast?_append_cons]
  rfl

/-- Claim C8 exhibit: the standalone `MaterializationUnitCreation` test
successfully creates an LLJIT (the create call's error result is null)
and finishes without ever calling `LLVMOrcDisposeLLJIT` — the leak the
claim rules out — while a fixture-based run of any test body always ends
with the destructor's `LLVMOrcDisposeLLJIT` call. -/
theorem lljit_disposal (body : LLJIT → List TestEvent) :
    TestEvent.apiCall "LLVMOrcCreateLLJIT" ∈
      oldMaterializationUnitCreationTrace ∧
    TestEvent.errorReceived false ∈ oldMaterializationUnitCreationTrace ∧
    TestEvent.apiCall "LLVMOrcDisposeLLJIT" ∉
      oldMaterializationUnitCreationTrace ∧
    (fixtureRun body).getLast? =
      some (TestEvent.apiCall "LLVMOrcDisposeLLJIT") := by
  refine ⟨by decide, by decide, by decide, ?_⟩
  rw [fixtureRun]
  exact getLast_append_single _ _

end OrcCAPI
